import Mathlib

set_option maxHeartbeats 1000000
set_option maxRecDepth 4000

/-!
Shallow embedding of the grading_for_waes AI invocation and resilience engine.

The definitions below are translated from the Python sources:
`src/config.py`, `src/core/vertex_wrapper.py`, `src/services/chat_service.py`,
`src/services/sheets_service.py` and `src/workflows/grading_process.py`.
External collaborators (Google Drive downloads, the Vertex AI network stream,
the spreadsheet backend) are modelled as explicit environment inputs; the
tenacity retry decorators are modelled after the tenacity library's
`wait_exponential` / `stop_after_attempt` / `retry_if_exception_type`
semantics (`reraise` is left at its default `False`, so exhausting attempts
raises a `RetryError` wrapping the last exception, while a non-retryable
exception is re-raised unchanged on the first failing attempt).
-/

namespace Config

/-- Configuration constant from `src/config.py`: `API_TIMEOUT_SECONDS = 1200`. -/
def API_TIMEOUT_SECONDS : Nat := 1200

/-- Configuration constant from `src/config.py`: `MAX_RETRIES = 7`. -/
def MAX_RETRIES : Nat := 7

/-- Configuration constant from `src/config.py`: `RETRY_MIN_WAIT = 5`. -/
def RETRY_MIN_WAIT : Nat := 5

/-- Configuration constant from `src/config.py`: `RETRY_MAX_WAIT = 120`. -/
def RETRY_MAX_WAIT : Nat := 120

end Config

/-- Subclasses of `google.api_core.exceptions.GoogleAPIError` that appear in the
sources or in the error classes the spec talks about.  In the Python class
hierarchy `InvalidArgument` (400, malformed input), `Unauthenticated` (401) and
`PermissionDenied` (403) are subclasses of `GoogleAPIError` just like
`InternalServerError` (500), `ServiceUnavailable` (503), `TooManyRequests` (429)
and `DeadlineExceeded` (504). -/
inductive GoogleSub
  | invalidArgument
  | unauthenticated
  | permissionDenied
  | internalServerError
  | serviceUnavailable
  | tooManyRequests
  | deadlineExceeded
  | generic
  deriving DecidableEq, Repr

/-- Python exceptions that the embedded code raises or classifies. -/
inductive PyErr
  | googleAPIError (sub : GoogleSub)
  | timeoutError (msg : String)
  | connectionError
  | valueError (msg : String)
  | attributeError
  | otherError (name : String)
  deriving DecidableEq, Repr

/-- An exception as surfaced by a tenacity-wrapped call: either the original
exception (re-raised because it was non-retryable, or raised outside tenacity)
or a `tenacity.RetryError` wrapping the exception of the last failed attempt
(raised when `stop_after_attempt` fires with `reraise=False`, the default used
everywhere in this codebase). -/
inductive PyExc
  | base (e : PyErr)
  | retryError (last : PyErr)
  deriving DecidableEq, Repr

/-- Rendering of `str(e)` for the exception messages the code interpolates into
spreadsheet status strings.  Only the `valueError` and `timeoutError` cases
carry a message in the source; for the other classes the rendering is a
best-effort stand-in for the Python `str` of an exception object. -/
def pyStr : PyErr → String
  | .googleAPIError _ => "GoogleAPIError"
  | .timeoutError msg => msg
  | .connectionError => ""
  | .valueError msg => msg
  | .attributeError => "AttributeError"
  | .otherError name => name

/-- Rendering of `str` for a possibly-RetryError-wrapped exception. -/
def pyStrExc : PyExc → String
  | .base e => pyStr e
  | .retryError _ => "RetryError"

/-- Retry classification of `SheetsService`'s decorators:
`retry_if_exception_type((GoogleAPIError, TimeoutError, ConnectionError))`. -/
def sheetsRetryable : PyErr → Bool
  | .googleAPIError _ => true
  | .timeoutError _ => true
  | .connectionError => true
  | _ => false

/-- Retry classification of `ChatService._send_message_with_timeout`:
`retry_if_exception_type((GoogleAPIError, InternalServerError,
ServiceUnavailable, TooManyRequests, TimeoutError, ConnectionError))`.
The three listed subclasses are already instances of `GoogleAPIError`, so the
effective set coincides with the sheets classification. -/
def sendRetryable : PyErr → Bool
  | .googleAPIError _ => true
  | .timeoutError _ => true
  | .connectionError => true
  | _ => false

/-- Retry classification of `AIClientWrapper.create_cache`:
`retry_if_exception_type((Exception,))` — every exception is retried. -/
def cacheRetryable : PyErr → Bool := fun _ => true

/-- Lift of the sheets retry classification to surfaced exceptions: a
`tenacity.RetryError` raised by a nested tenacity-wrapped call is not an
instance of any of the listed classes, hence never retryable here. -/
def sheetsRetryExc : PyExc → Bool
  | .base e => sheetsRetryable e
  | .retryError _ => false

/-- Tenacity `wait_exponential(multiplier=1, min=RETRY_MIN_WAIT,
max=RETRY_MAX_WAIT)`: the wait after failed attempt number `n` (1-based) is
`max(min, minimum(multiplier * 2^(n-1), max))` (tenacity computes
`max(max(0, min), min(multiplier * exp_base**(attempt_number - 1), max))`). -/
def waitExponential (n : Nat) : Nat :=
  max Config.RETRY_MIN_WAIT (min (2 ^ (n - 1)) Config.RETRY_MAX_WAIT)

/-- Token usage metadata attached to a streamed chunk
(`usage_metadata.prompt_token_count` / `candidates_token_count`). -/
structure UsageMetadata where
  prompt_token_count : Nat
  candidates_token_count : Nat
  deriving DecidableEq, Repr

/-- One streamed chunk of a Vertex AI response.  `text = none` models a chunk
with no (or a falsy) `text` attribute; `candidates` holds the `finish_reason`
attribute of each candidate (`none` when the attribute is absent);
`usage_metadata = none` models an absent/None usage payload. -/
structure Chunk where
  text : Option String
  candidates : List (Option String)
  usage_metadata : Option UsageMetadata
  deriving DecidableEq, Repr

/-- The wrapper object `StreamResponse(text, usage_metadata)` built at the end
of `_send_message_with_timeout`. -/
structure StreamResponse where
  text : String
  usage_metadata : Option UsageMetadata
  deriving DecidableEq, Repr

/-- Behaviour of one streamed model call as observed by the worker thread that
consumes it: it either finishes within the wall-clock timeout (delivering
chunks, possibly raising midway), finishes only after the timeout fired, or
never finishes at all. -/
inductive StreamBehavior
  | completes (chunks : List Chunk)
  | errors (chunks : List Chunk) (e : PyErr)
  | timesOutThenFinishes (chunks : List Chunk)
  | timesOutForever
  deriving Repr

/-- Text contributed by one chunk: `c.text for c in chunks if hasattr(c, 'text')
and c.text` keeps only chunks with a non-empty text attribute. -/
def chunkText (c : Chunk) : Option String :=
  match c.text with
  | some t => if t = "" then none else some t
  | none => none

/-- Accumulated response text: `"".join(c.text for c in chunks if ...)`. -/
def assembledText (chunks : List Chunk) : String :=
  String.join (chunks.filterMap chunkText)

/-- Diagnostic finish reason extracted from the last chunk:
`getattr(last_chunk.candidates[0], 'finish_reason', 'UNKNOWN')` when the chunk
has a non-empty `candidates` list, `'NO_CANDIDATES'` otherwise. -/
def finishReasonOf (c : Chunk) : String :=
  match c.candidates with
  | [] => "NO_CANDIDATES"
  | fr :: _ => fr.getD "UNKNOWN"

/-- Result of one attempt of `_send_message_with_timeout`'s body (before the
tenacity decorator): a value, a raised exception, or a hang. -/
inductive SendOutcome
  | ok (r : StreamResponse)
  | raises (e : PyErr)
  | hangs
  deriving DecidableEq, Repr

/-- One attempt of `ChatService._send_message_with_timeout`'s body.

The model call runs on a `ThreadPoolExecutor` worker; the caller waits
`future.result(timeout=API_TIMEOUT_SECONDS)`.  On `TimeoutError` it raises
`TimeoutError("Timeout alcanzado esperando al modelo.")` — but the `with`
statement around the executor calls `shutdown(wait=True)` on exit, which joins
the worker thread; so when the worker never finishes, the call blocks forever
instead of returning, which the `timesOutForever` case records as `hangs`.
Otherwise: a stream error collected by the worker is re-raised; zero chunks
raise a `ValueError`; an assembled text that is empty raises a `ValueError`
carrying the diagnostic finish reason; else the accumulated text is returned
together with the last chunk's `usage_metadata`. -/
def sendAttempt : StreamBehavior → SendOutcome
  | .timesOutForever => .hangs
  | .timesOutThenFinishes _ => .raises (.timeoutError "Timeout alcanzado esperando al modelo.")
  | .errors _ e => .raises e
  | .completes chunks =>
    if chunks.isEmpty then
      .raises (.valueError "Vertex AI devolvió una respuesta vacía (0 chunks).")
    else
      let lastChunk := chunks.getLastD ⟨none, [], none⟩
      let fullText := assembledText chunks
      if fullText = "" then
        .raises (.valueError ("Vertex AI bloqueó la respuesta. finish_reason=" ++ finishReasonOf lastChunk))
      else
        .ok ⟨fullText, lastChunk.usage_metadata⟩

/-- Outcome of the tenacity-wrapped `_send_message_with_timeout`. -/
inductive SROutcome
  | ok (r : StreamResponse)
  | err (exc : PyExc)
  | hangs
  deriving DecidableEq, Repr

/-- Result of the tenacity-wrapped send, together with the number of attempts
made and the list of waits slept between consecutive attempts. -/
structure SendResult where
  outcome : SROutcome
  attempts : Nat
  waits : List Nat
  deriving DecidableEq, Repr

/-- Tenacity retry loop around `sendAttempt`.  `streams k` is the behaviour the
provider exhibits on attempt `k` (attempts are numbered from 1); `fuel` is the
number of retries still allowed (`MAX_RETRIES - 1` initially, matching
`stop_after_attempt(MAX_RETRIES)`).  A non-retryable exception is re-raised
unchanged; exhausting attempts surfaces `tenacity.RetryError` wrapping the last
exception; the wait slept after failed attempt `n` is `waitExponential n`. -/
def sendGo (streams : Nat → StreamBehavior) (fuel n : Nat) (ws : List Nat) : SendResult :=
  match sendAttempt (streams n) with
  | .ok r => ⟨.ok r, n, ws⟩
  | .hangs => ⟨.hangs, n, ws⟩
  | .raises e =>
    if sendRetryable e then
      match fuel with
      | 0 => ⟨.err (.retryError e), n, ws⟩
      | fuel' + 1 => sendGo streams fuel' (n + 1) (ws ++ [waitExponential n])
    else ⟨.err (.base e), n, ws⟩

/-- The tenacity-decorated `ChatService._send_message_with_timeout`. -/
def sendWithRetry (streams : Nat → StreamBehavior) : SendResult :=
  sendGo streams (Config.MAX_RETRIES - 1) 1 []

/-- The document links carried by one work-queue row (`row_data['links']` in
`SheetsService.get_pending_rows`); an empty string models a blank cell. -/
structure Links where
  transcript : String
  doe_abuse : String
  doe_gmc : String
  dair : String
  fair : String
  rapsheet : String
  summary : String
  deriving DecidableEq, Repr

/-- One pending work-queue row as returned by
`SheetsService.get_pending_rows`. -/
structure RowData where
  row_idx : Nat
  client_id : String
  client_name : String
  visa_type : String
  links : Links
  deriving DecidableEq, Repr

/-- The `docs_to_download` list built in
`GradingProcess.process_single_case`. -/
def docsToDownload (l : Links) : List (String × String) :=
  [("TRANSCRIPT_INTERVIEW", l.transcript),
   ("DOE_ABUSE", l.doe_abuse),
   ("DOE_GMC", l.doe_gmc),
   ("DAIR", l.dair),
   ("FAIR", l.fair),
   ("RAPSHEET", l.rapsheet),
   ("AI_SUMMARY", l.summary)]

/-- Observable events emitted while one case is processed.  Sheet writes
(`processingStart`, `statusWrite`, `resultsWrite`) are recorded only when the
underlying spreadsheet call succeeds. -/
inductive Event
  | sessionInitOk
  | sessionInitFailed
  | processingStart
  | statusWrite (s : String)
  | downloadAttempt (doc : String)
  | docAttached (doc : String)
  | downloadWarning (doc : String)
  | modelInvoked
  | localSave
  | upload
  | resultsWrite
  deriving DecidableEq, Repr

/-- Handling of one entry of the download loop in
`GradingProcess.process_single_case`: `if url and len(url) > 5:` attempt the
download, appending `(doc_type, path)` on success and logging a warning on
failure; otherwise the link is skipped silently.  Returns the resolved pdfs
and the emitted events. -/
def downloadOne (ok : String → Bool) (d u : String) : List (String × String) × List Event :=
  if u ≠ "" ∧ u.length > 5 then
    if ok d then ([(d, d ++ ".pdf")], [.downloadAttempt d, .docAttached d])
    else ([], [.downloadAttempt d, .downloadWarning d])
  else ([], [])

/-- The download loop over `docs_to_download`: pdf paths and events are
accumulated in iteration order. -/
def downloadDocs (ok : String → Bool) : List (String × String) →
    List (String × String) × List Event
  | [] => ([], [])
  | p :: rest =>
    let r := downloadOne ok p.1 p.2
    let rr := downloadDocs ok rest
    (r.1 ++ rr.1, r.2 ++ rr.2)

/-- Mutable context threaded through one case: the oracle of outcomes for
successive spreadsheet write calls (`none` = the write succeeds, `some e` = the
write raises `e`; an exhausted oracle means every further write succeeds) and
the list of events recorded so far. -/
structure CaseSt where
  oracle : List (Option PyErr)
  events : List Event
  deriving Repr

/-- Record an event. -/
def emit (e : Event) (st : CaseSt) : CaseSt :=
  { st with events := st.events ++ [e] }

/-- One primitive spreadsheet write (`update_cell`, `batch_update` or
`update(range)`): consumes the next oracle entry; on success the event is
recorded. -/
def primWrite (ev : Event) (st : CaseSt) : Option PyErr × CaseSt :=
  match st.oracle with
  | [] => (none, emit ev st)
  | o :: rest =>
    match o with
    | none => (none, emit ev { st with oracle := rest })
    | some e => (some e, { st with oracle := rest })

/-- An exception raised when tenacity stops retrying: a retryable exception is
wrapped in `tenacity.RetryError`. -/
def wrapRetry : PyExc → PyExc
  | .base e => .retryError e
  | .retryError e => .retryError e

/-- Tenacity retry loop around a fallible body: `fuel` is the number of
retries still allowed (`MAX_RETRIES - 1` initially).  A failure the predicate
rejects is re-raised unchanged; exhausting attempts raises `RetryError`
wrapping the last exception. -/
def tenacityLoop (retryP : PyExc → Bool) (body : CaseSt → Option PyExc × CaseSt) :
    Nat → CaseSt → Option PyExc × CaseSt
  | 0, st =>
    match body st with
    | (none, st') => (none, st')
    | (some exc, st') => (some (if retryP exc then wrapRetry exc else exc), st')
  | fuel + 1, st =>
    match body st with
    | (none, st') => (none, st')
    | (some exc, st') =>
      if retryP exc then tenacityLoop retryP body fuel st' else (some exc, st')

/-- Body of `SheetsService.update_status`: one `update_cell` call on the
status column. -/
def statusBody (s : String) (st : CaseSt) : Option PyExc × CaseSt :=
  let r := primWrite (.statusWrite s) st
  (r.1.map .base, r.2)

/-- The tenacity-decorated `SheetsService.update_status`. -/
def updateStatus (s : String) (st : CaseSt) : Option PyExc × CaseSt :=
  tenacityLoop sheetsRetryExc (statusBody s) (Config.MAX_RETRIES - 1) st

/-- Body of `SheetsService.mark_processing_start`: one `batch_update` writing
status `PROCESSING` together with the start timestamp (column S). -/
def processingBody (st : CaseSt) : Option PyExc × CaseSt :=
  let r := primWrite .processingStart st
  (r.1.map .base, r.2)

/-- The tenacity-decorated `SheetsService.mark_processing_start`. -/
def markProcessingStart (st : CaseSt) : Option PyExc × CaseSt :=
  tenacityLoop sheetsRetryExc processingBody (Config.MAX_RETRIES - 1) st

/-- Body of `SheetsService.write_grading_results`: write the result columns
`M:T`, then set status `COMPLETED` via `update_status`; on any failure try to
set status `ERROR SAVING RESULTS` (ignoring its own failure) and re-raise. -/
def wgrBody (st : CaseSt) : Option PyExc × CaseSt :=
  match primWrite .resultsWrite st with
  | (some e, st1) =>
    let r := updateStatus "ERROR SAVING RESULTS" st1
    (some (.base e), r.2)
  | (none, st1) =>
    match updateStatus "COMPLETED" st1 with
    | (none, st2) => (none, st2)
    | (some exc, st2) =>
      let r := updateStatus "ERROR SAVING RESULTS" st2
      (some exc, r.2)

/-- The tenacity-decorated `SheetsService.write_grading_results`. -/
def writeGradingResults (st : CaseSt) : Option PyExc × CaseSt :=
  tenacityLoop sheetsRetryExc wgrBody (Config.MAX_RETRIES - 1) st

/-- Environment of one case: outcomes of its external collaborators.
`sessionInitResult` is the final outcome of `chat_service.initialize_session`
(after that call's internal retries), `downloadOk` tells whether
`drive_service.download_as_pdf` succeeds for a given document label,
`promptFetch` is the outcome of `_fetch_doc_text(URL_PROMPT_WAES)`,
`streams k` is the provider behaviour on the k-th model-call attempt,
`localSaveResult`/`uploadResult` are the outcomes of the local file write and
of the Drive upload, and `oracle` drives the spreadsheet writes. -/
structure CaseEnv where
  sessionInitResult : Option PyErr
  downloadOk : String → Bool
  promptFetch : Except PyExc String
  streams : Nat → StreamBehavior
  modelName : String
  localSaveResult : Option PyErr
  uploadResult : Option PyErr
  oracle : List (Option PyErr)

/-- Decidable check that `pat` is a prefix of `l`. -/
def charsStart (pat l : List Char) : Bool :=
  match pat, l with
  | [], _ => true
  | _ :: _, [] => false
  | p :: ps, c :: cs => p = c && charsStart ps cs

/-- The characters after the LAST occurrence of `pat` in `l` (`none` when
`pat` does not occur), matching Python's `s.split(pat)[-1]` combined with the
`pat in s` test. -/
def splitTailAfter (pat : List Char) : List Char → Option (List Char)
  | [] => none
  | c :: cs =>
    match splitTailAfter pat cs with
    | some r => some r
    | none => if charsStart pat (c :: cs) then some ((c :: cs).drop pat.length) else none

/-- Cleaning of the model identifier in `execute_grading_flow`:
`if 'models/' in model_name: model_name = model_name.split('models/')[-1]`. -/
def cleanModelName (n : String) : String :=
  match splitTailAfter ("models/".data) n.data with
  | some r => String.mk r
  | none => n

/-- Outcome of `ChatService.execute_grading_flow`. -/
inductive GFOut
  | ok (text : String) (tokens : Nat × Nat) (model : String)
  | err (exc : PyExc)
  | hangs
  deriving DecidableEq, Repr

/-- The `ChatService.execute_grading_flow` pipeline: require an initialized
session, fetch the prompt document, run the tenacity-wrapped streaming send,
then read the token counts from `response.usage_metadata.prompt_token_count` /
`candidates_token_count` — accessing them on an absent (`None`) usage payload
raises `AttributeError`. -/
def executeGradingFlow (initialized : Bool) (env : CaseEnv) : GFOut :=
  if initialized = false then
    .err (.base (.valueError "La sesión de chat no ha sido inicializada."))
  else
    match env.promptFetch with
    | .error exc => .err exc
    | .ok _ =>
      match (sendWithRetry env.streams).outcome with
      | .hangs => .hangs
      | .err exc => .err exc
      | .ok r =>
        match r.usage_metadata with
        | none => .err (.base .attributeError)
        | some u =>
          .ok r.text (u.prompt_token_count, u.candidates_token_count) (cleanModelName env.modelName)

/-- Outcome of `GradingProcess.process_single_case`: a normal return, an
exception escaping the method, or a hang inside the model call. -/
inductive CaseOutcome
  | done
  | raised (exc : PyExc)
  | hangs
  deriving DecidableEq, Repr

/-- The outer `except` handler of `process_single_case`: try to write an
`ERROR: <reason>` status (reason truncated to 50 characters) and swallow any
failure of that write. -/
def caseExcept (exc : PyExc) (st : CaseSt) : CaseOutcome × List Event :=
  let r := updateStatus ("ERROR: " ++ (pyStrExc exc).take 50) st
  (.done, r.2.events)

/-- The per-case state machine `GradingProcess.process_single_case`.  Session
initialization comes first; when it fails, an `ERROR: No se pudo iniciar
chat - <detail[:40]>` status is written directly (this write is not guarded by
a handler, so its failure escapes the method).  Then, inside the guarded
block: mark `PROCESSING` (with the start timestamp), download the documents,
fail the case when no document resolved, invoke the grading flow, persist the
result locally, upload it to Drive and write the results back. -/
def processSingleCase (env : CaseEnv) (row : RowData) : CaseOutcome × List Event :=
  let st0 : CaseSt := ⟨env.oracle, []⟩
  match env.sessionInitResult with
  | some e =>
    let st1 := emit .sessionInitFailed st0
    match updateStatus ("ERROR: No se pudo iniciar chat - " ++ (pyStr e).take 40) st1 with
    | (none, st2) => (.done, st2.events)
    | (some exc, st2) => (.raised exc, st2.events)
  | none =>
    let st1 := emit .sessionInitOk st0
    match markProcessingStart st1 with
    | (some exc, st2) => caseExcept exc st2
    | (none, st2) =>
      let dl := downloadDocs env.downloadOk (docsToDownload row.links)
      let st3 : CaseSt := { st2 with events := st2.events ++ dl.2 }
      if dl.1.isEmpty then
        caseExcept (.base (.valueError "No se pudieron descargar documentos válidos para el cliente.")) st3
      else
        let st4 := emit .modelInvoked st3
        match executeGradingFlow true env with
        | .hangs => (.hangs, st4.events)
        | .err exc => caseExcept exc st4
        | .ok _ _ _ =>
          match env.localSaveResult with
          | some e => caseExcept (.base e) st4
          | none =>
            let st5 := emit .localSave st4
            match env.uploadResult with
            | some e => caseExcept (.base e) st5
            | none =>
              let st6 := emit .upload st5
              match writeGradingResults st6 with
              | (none, st7) => (.done, st7.events)
              | (some exc, st7) => caseExcept exc st7

/-- The successive values taken by the status column of the processed row:
`processingStart` writes `PROCESSING`, `statusWrite s` writes `s`. -/
def statusTrace (evs : List Event) : List String :=
  evs.filterMap fun e =>
    match e with
    | .processingStart => some "PROCESSING"
    | .statusWrite s => some s
    | _ => none

/-- Whitespace trimming of a character list on both ends. -/
def trimChars (l : List Char) : List Char :=
  ((l.dropWhile Char.isWhitespace).reverse.dropWhile Char.isWhitespace).reverse

/-- Python's `str.strip()`: remove leading and trailing whitespace. -/
def pyStrip (s : String) : String := String.mk (trimChars s.data)

/-- Python list indexing: `row[i]` raises `IndexError` out of range. -/
def pyIndex (l : List String) (i : Nat) : Except PyErr String :=
  if h : i < l.length then .ok (l.get ⟨i, h⟩) else .error (.otherError "IndexError")

/-- The guarded column read used by `get_pending_rows`:
`row[col - 1] if len(row) >= col else ""`. -/
def colOrEmpty (row : List String) (col : Nat) : Except PyErr String :=
  if col ≤ row.length then pyIndex row (col - 1) else .ok ""

/-- Recursion of `SheetsService.get_pending_rows` over the enumerated sheet
values: skip the header row (1-based row 1); consider only rows long enough to
hold the status column (column 3); select a row when its stripped status cell
equals `PENDING PROCESSING`, reading the identity columns directly and every
link column through the length guard. -/
def gprGo : Nat → List (List String) → Except PyErr (List RowData)
  | _, [] => .ok []
  | i, row :: rest =>
    if i + 1 = 1 then gprGo (i + 1) rest
    else if 3 ≤ row.length then
      match pyIndex row 2 with
      | .error e => .error e
      | .ok rawStatus =>
        if pyStrip rawStatus = "PENDING PROCESSING" then do
          let cid ← pyIndex row 0
          let cname ← pyIndex row 1
          let visa ← colOrEmpty row 4
          let tr ← colOrEmpty row 5
          let da ← colOrEmpty row 6
          let dg ← colOrEmpty row 7
          let dr ← colOrEmpty row 8
          let fa ← colOrEmpty row 9
          let rp ← colOrEmpty row 10
          let sm ← colOrEmpty row 11
          let rest' ← gprGo (i + 1) rest
          pure (⟨i + 1, cid, cname, visa, ⟨tr, da, dg, dr, fa, rp, sm⟩⟩ :: rest')
        else gprGo (i + 1) rest
    else gprGo (i + 1) rest

/-- The `SheetsService.get_pending_rows` scan over `sheet.get_all_values()`. -/
def getPendingRows (values : List (List String)) : Except PyErr (List RowData) :=
  gprGo 0 values

/-- Reference reading of one sheet row, following the spec's words: missing
trailing columns are treated as blank/absent. -/
def rowToData (rowIdx : Nat) (row : List String) : RowData :=
  ⟨rowIdx, row.getD 0 "", row.getD 1 "", row.getD 3 "",
   ⟨row.getD 4 "", row.getD 5 "", row.getD 6 "", row.getD 7 "",
    row.getD 8 "", row.getD 9 "", row.getD 10 ""⟩⟩

/-- Reference selection of the pending rows, following the spec's words: every
non-header row whose (whitespace-trimmed) status cell carries the pending
marker, read without error even when trailing columns are missing. -/
def selectedGo : Nat → List (List String) → List RowData
  | _, [] => []
  | i, row :: rest =>
    if i + 1 ≠ 1 ∧ 3 ≤ row.length ∧ pyStrip (row.getD 2 "") = "PENDING PROCESSING" then
      rowToData (i + 1) row :: selectedGo (i + 1) rest
    else selectedGo (i + 1) rest

/-- Reference form of the pending-row selection. -/
def selectedPendingRows (values : List (List String)) : List RowData :=
  selectedGo 0 values

/-- Environment of one run: the outcome of the shared Context Cache
bootstrap (`cache_service.ensure_fundamentos_cache`), the outcome of
`sheet.get_all_values()`, and the per-case environment keyed by row index. -/
structure RunEnv where
  cacheResult : Option PyErr
  fetchResult : Except PyErr (List (List String))
  caseEnv : Nat → CaseEnv

/-- Outcome of `GradingProcess.run`. -/
inductive RunOutcome
  | finished
  | raised (exc : PyExc)
  | hangs
  deriving DecidableEq, Repr

/-- The per-case loop of `GradingProcess.run`: cases are processed strictly
sequentially; an exception escaping `process_single_case` aborts the loop. -/
def runCases (renv : RunEnv) : List RowData → List (Nat × Event) → RunOutcome × List (Nat × Event)
  | [], acc => (.finished, acc)
  | row :: rest, acc =>
    match processSingleCase (renv.caseEnv row.row_idx) row with
    | (.done, evs) => runCases renv rest (acc ++ evs.map fun e => (row.row_idx, e))
    | (.raised exc, evs) => (.raised exc, acc ++ evs.map fun e => (row.row_idx, e))
    | (.hangs, evs) => (.hangs, acc ++ evs.map fun e => (row.row_idx, e))

/-- The run coordinator `GradingProcess.run`: bootstrap the shared cache (its
failure is caught and ends the run before any case), fetch the pending rows
once, then drive every pending case. -/
def runGP (renv : RunEnv) : RunOutcome × List (Nat × Event) :=
  match renv.cacheResult with
  | some _ => (.finished, [])
  | none =>
    match renv.fetchResult with
    | .error e => (.raised (.base e), [])
    | .ok values =>
      match getPendingRows values with
      | .error e => (.raised (.base e), [])
      | .ok rows => runCases renv rows []

/-- An `ERROR`-family status string, as written by the error handlers of
`process_single_case`. -/
def isErrorStatus (s : String) : Prop := ∃ r, s = "ERROR: " ++ r

lemma tenacityLoop_of_body_ok (retryP : PyExc → Bool) (body : CaseSt → Option PyExc × CaseSt)
    (fuel : Nat) (st st' : CaseSt) (h : body st = (none, st')) :
    tenacityLoop retryP body fuel st = (none, st') := by
  cases fuel <;> simp [tenacityLoop, h]

lemma tenacityLoop_of_body_fail (retryP : PyExc → Bool) (body : CaseSt → Option PyExc × CaseSt)
    (fuel : Nat) (st st' : CaseSt) (exc : PyExc) (h : body st = (some exc, st'))
    (hr : retryP exc = false) :
    tenacityLoop retryP body fuel st = (some exc, st') := by
  cases fuel <;> simp [tenacityLoop, h, hr]

lemma primWrite_nil (ev : Event) (evs : List Event) :
    primWrite ev ⟨[], evs⟩ = (none, ⟨[], evs ++ [ev]⟩) := rfl

lemma updateStatus_nil (s : String) (evs : List Event) :
    updateStatus s ⟨[], evs⟩ = (none, ⟨[], evs ++ [.statusWrite s]⟩) := by
  apply tenacityLoop_of_body_ok
  rfl

lemma markProcessingStart_nil (evs : List Event) :
    markProcessingStart ⟨[], evs⟩ = (none, ⟨[], evs ++ [.processingStart]⟩) := by
  apply tenacityLoop_of_body_ok
  rfl

lemma writeGradingResults_nil (evs : List Event) :
    writeGradingResults ⟨[], evs⟩ =
      (none, ⟨[], evs ++ [.resultsWrite, .statusWrite "COMPLETED"]⟩) := by
  have h1 : wgrBody ⟨[], evs⟩ =
      (none, ⟨[], (evs ++ [.resultsWrite]) ++ [.statusWrite "COMPLETED"]⟩) := rfl
  rw [List.append_assoc] at h1
  exact tenacityLoop_of_body_ok _ _ _ _ _ h1

lemma caseExcept_nil (exc : PyExc) (evs : List Event) :
    caseExcept exc ⟨[], evs⟩ =
      (.done, evs ++ [.statusWrite ("ERROR: " ++ (pyStrExc exc).take 50)]) := by
  simp [caseExcept, updateStatus_nil]

@[simp] lemma statusTrace_nil : statusTrace [] = [] := rfl

@[simp] lemma statusTrace_append (a b : List Event) :
    statusTrace (a ++ b) = statusTrace a ++ statusTrace b := by
  simp [statusTrace]

lemma sendAttempt_hangs_iff (b : StreamBehavior) :
    sendAttempt b = .hangs ↔ b = .timesOutForever := by
  cases b with
  | completes chunks =>
    simp only [sendAttempt]
    split
    · simp
    · split <;> simp
  | errors chunks e => simp [sendAttempt]
  | timesOutThenFinishes chunks => simp [sendAttempt]
  | timesOutForever => simp [sendAttempt]

lemma sendGo_ok (streams : Nat → StreamBehavior) (fuel n : Nat) (ws : List Nat)
    (r : StreamResponse) (h : sendAttempt (streams n) = .ok r) :
    sendGo streams fuel n ws = ⟨.ok r, n, ws⟩ := by
  cases fuel <;> · unfold sendGo; rw [h]

lemma sendGo_hangStep (streams : Nat → StreamBehavior) (fuel n : Nat) (ws : List Nat)
    (h : sendAttempt (streams n) = .hangs) :
    sendGo streams fuel n ws = ⟨.hangs, n, ws⟩ := by
  cases fuel <;> · unfold sendGo; rw [h]

lemma sendGo_raises_nonretry (streams : Nat → StreamBehavior) (fuel n : Nat) (ws : List Nat)
    (e : PyErr) (h : sendAttempt (streams n) = .raises e) (hr : sendRetryable e = false) :
    sendGo streams fuel n ws = ⟨.err (.base e), n, ws⟩ := by
  cases fuel <;> · unfold sendGo; rw [h]; simp [hr]

lemma sendGo_raises_zero (streams : Nat → StreamBehavior) (n : Nat) (ws : List Nat)
    (e : PyErr) (h : sendAttempt (streams n) = .raises e) (hr : sendRetryable e = true) :
    sendGo streams 0 n ws = ⟨.err (.retryError e), n, ws⟩ := by
  unfold sendGo; rw [h]; simp [hr]

lemma sendGo_raises_step (streams : Nat → StreamBehavior) (fuel n : Nat) (ws : List Nat)
    (e : PyErr) (h : sendAttempt (streams n) = .raises e) (hr : sendRetryable e = true) :
    sendGo streams (fuel + 1) n ws = sendGo streams fuel (n + 1) (ws ++ [waitExponential n]) := by
  conv_lhs => unfold sendGo
  rw [h]; simp [hr]

lemma sendGo_no_hangs (streams : Nat → StreamBehavior)
    (h : ∀ k, streams k ≠ .timesOutForever) :
    ∀ fuel n ws, (sendGo streams fuel n ws).outcome ≠ SROutcome.hangs := by
  intro fuel
  induction fuel with
  | zero =>
    intro n ws
    cases hsa : sendAttempt (streams n) with
    | ok r => simp [sendGo_ok streams 0 n ws r hsa]
    | hangs => exact absurd ((sendAttempt_hangs_iff _).mp hsa) (h n)
    | raises e =>
      cases hr : sendRetryable e with
      | true => simp [sendGo_raises_zero streams n ws e hsa hr]
      | false => simp [sendGo_raises_nonretry streams 0 n ws e hsa hr]
  | succ fuel ih =>
    intro n ws
    cases hsa : sendAttempt (streams n) with
    | ok r => simp [sendGo_ok streams (fuel + 1) n ws r hsa]
    | hangs => exact absurd ((sendAttempt_hangs_iff _).mp hsa) (h n)
    | raises e =>
      cases hr : sendRetryable e with
      | true =>
        rw [sendGo_raises_step streams fuel n ws e hsa hr]
        exact ih (n + 1) (ws ++ [waitExponential n])
      | false => simp [sendGo_raises_nonretry streams (fuel + 1) n ws e hsa hr]

lemma assembledText_eq_empty (chunks : List Chunk)
    (h : ∀ c ∈ chunks, ∀ t, c.text = some t → t = "") :
    assembledText chunks = "" := by
  have hfm : chunks.filterMap chunkText = [] := by
    rw [List.filterMap_eq_nil_iff]
    intro c hc
    cases hct : c.text with
    | none => simp [chunkText, hct]
    | some t =>
      have := h c hc t hct
      simp [chunkText, hct, this]
  simp [assembledText, hfm, String.join]

lemma sendAttempt_noText (chunks : List Chunk)
    (h : ∀ c ∈ chunks, ∀ t, c.text = some t → t = "") :
    ∃ m, sendAttempt (.completes chunks) = .raises (.valueError m) := by
  by_cases hc : chunks.isEmpty
  · exact ⟨"Vertex AI devolvió una respuesta vacía (0 chunks).", by simp [sendAttempt, hc]⟩
  · refine ⟨"Vertex AI bloqueó la respuesta. finish_reason=" ++
      finishReasonOf (chunks.getLastD ⟨none, [], none⟩), ?_⟩
    simp [sendAttempt, hc, assembledText_eq_empty chunks h, List.getLastD]

lemma waitExponential_mono {m n : Nat} (h : m ≤ n) : waitExponential m ≤ waitExponential n := by
  unfold waitExponential
  exact max_le_max (le_refl _)
    (min_le_min (Nat.pow_le_pow_right (by norm_num) (Nat.sub_le_sub_right h 1)) (le_refl _))

lemma waitExponential_ge (n : Nat) : Config.RETRY_MIN_WAIT ≤ waitExponential n :=
  le_max_left _ _

lemma waitExponential_le (n : Nat) : waitExponential n ≤ Config.RETRY_MAX_WAIT := by
  unfold waitExponential
  exact max_le (by norm_num [Config.RETRY_MIN_WAIT, Config.RETRY_MAX_WAIT]) (min_le_right _ _)

lemma sendGo_attempts_ge (streams : Nat → StreamBehavior) :
    ∀ fuel n ws, n ≤ (sendGo streams fuel n ws).attempts := by
  intro fuel
  induction fuel with
  | zero =>
    intro n ws
    cases hsa : sendAttempt (streams n) with
    | ok r => simp [sendGo_ok streams 0 n ws r hsa]
    | hangs => simp [sendGo_hangStep streams 0 n ws hsa]
    | raises e =>
      cases hr : sendRetryable e with
      | true => simp [sendGo_raises_zero streams n ws e hsa hr]
      | false => simp [sendGo_raises_nonretry streams 0 n ws e hsa hr]
  | succ fuel ih =>
    intro n ws
    cases hsa : sendAttempt (streams n) with
    | ok r => simp [sendGo_ok streams (fuel + 1) n ws r hsa]
    | hangs => simp [sendGo_hangStep streams (fuel + 1) n ws hsa]
    | raises e =>
      cases hr : sendRetryable e with
      | true =>
        rw [sendGo_raises_step streams fuel n ws e hsa hr]
        exact le_trans (Nat.le_succ n) (ih (n + 1) (ws ++ [waitExponential n]))
      | false => simp [sendGo_raises_nonretry streams (fuel + 1) n ws e hsa hr]

lemma sendGo_attempts_le (streams : Nat → StreamBehavior) :
    ∀ fuel n ws, (sendGo streams fuel n ws).attempts ≤ n + fuel := by
  intro fuel
  induction fuel with
  | zero =>
    intro n ws
    cases hsa : sendAttempt (streams n) with
    | ok r => simp [sendGo_ok streams 0 n ws r hsa]
    | hangs => simp [sendGo_hangStep streams 0 n ws hsa]
    | raises e =>
      cases hr : sendRetryable e with
      | true => simp [sendGo_raises_zero streams n ws e hsa hr]
      | false => simp [sendGo_raises_nonretry streams 0 n ws e hsa hr]
  | succ fuel ih =>
    intro n ws
    cases hsa : sendAttempt (streams n) with
    | ok r => simp [sendGo_ok streams (fuel + 1) n ws r hsa]
    | hangs => simp [sendGo_hangStep streams (fuel + 1) n ws hsa]
    | raises e =>
      cases hr : sendRetryable e with
      | true =>
        rw [sendGo_raises_step streams fuel n ws e hsa hr]
        calc (sendGo streams fuel (n + 1) (ws ++ [waitExponential n])).attempts
            ≤ (n + 1) + fuel := ih (n + 1) (ws ++ [waitExponential n])
          _ = n + (fuel + 1) := by omega
      | false => simp [sendGo_raises_nonretry streams (fuel + 1) n ws e hsa hr]

lemma sendGo_waits_eq (streams : Nat → StreamBehavior) :
    ∀ fuel n ws, (sendGo streams fuel n ws).waits =
      ws ++ (List.range ((sendGo streams fuel n ws).attempts - n)).map
        (fun i => waitExponential (n + i)) := by
  intro fuel
  induction fuel with
  | zero =>
    intro n ws
    cases hsa : sendAttempt (streams n) with
    | ok r => simp [sendGo_ok streams 0 n ws r hsa]
    | hangs => simp [sendGo_hangStep streams 0 n ws hsa]
    | raises e =>
      cases hr : sendRetryable e with
      | true => simp [sendGo_raises_zero streams n ws e hsa hr]
      | false => simp [sendGo_raises_nonretry streams 0 n ws e hsa hr]
  | succ fuel ih =>
    intro n ws
    cases hsa : sendAttempt (streams n) with
    | ok r => simp [sendGo_ok streams (fuel + 1) n ws r hsa]
    | hangs => simp [sendGo_hangStep streams (fuel + 1) n ws hsa]
    | raises e =>
      cases hr : sendRetryable e with
      | true =>
        rw [sendGo_raises_step streams fuel n ws e hsa hr]
        rw [ih (n + 1) (ws ++ [waitExponential n])]
        have hge := sendGo_attempts_ge streams fuel (n + 1) (ws ++ [waitExponential n])
        set a := (sendGo streams fuel (n + 1) (ws ++ [waitExponential n])).attempts with ha
        have hk : a - n = (a - (n + 1)) + 1 := by omega
        rw [hk, List.range_succ_eq_map]
        rw [List.append_assoc]
        simp only [List.map_cons, List.map_map, Nat.add_zero, List.singleton_append]
        have hfe : ((fun i => waitExponential (n + i)) ∘ Nat.succ) =
            (fun i => waitExponential (n + 1 + i)) := by
          funext i
          simp only [Function.comp_apply]
          congr 1
          omega
        rw [hfe]
      | false => simp [sendGo_raises_nonretry streams (fuel + 1) n ws e hsa hr]

lemma sendGo_retryError_char (streams : Nat → StreamBehavior) :
    ∀ fuel n ws e, (sendGo streams fuel n ws).outcome = .err (.retryError e) →
      (sendGo streams fuel n ws).attempts = n + fuel ∧
      sendAttempt (streams (n + fuel)) = .raises e ∧ sendRetryable e = true := by
  intro fuel
  induction fuel with
  | zero =>
    intro n ws e h
    cases hsa : sendAttempt (streams n) with
    | ok r => rw [sendGo_ok streams 0 n ws r hsa] at h; exact absurd h (by simp)
    | hangs => rw [sendGo_hangStep streams 0 n ws hsa] at h; exact absurd h (by simp)
    | raises e' =>
      cases hr : sendRetryable e' with
      | true =>
        rw [sendGo_raises_zero streams n ws e' hsa hr] at h
        simp only [SROutcome.err.injEq, PyExc.retryError.injEq] at h
        subst h
        refine ⟨?_, ?_, hr⟩
        · rw [sendGo_raises_zero streams n ws e' hsa hr]; simp
        · simpa using hsa
      | false =>
        rw [sendGo_raises_nonretry streams 0 n ws e' hsa hr] at h
        exact absurd h (by simp)
  | succ fuel ih =>
    intro n ws e h
    cases hsa : sendAttempt (streams n) with
    | ok r => rw [sendGo_ok streams (fuel + 1) n ws r hsa] at h; exact absurd h (by simp)
    | hangs => rw [sendGo_hangStep streams (fuel + 1) n ws hsa] at h; exact absurd h (by simp)
    | raises e' =>
      cases hr : sendRetryable e' with
      | true =>
        rw [sendGo_raises_step streams fuel n ws e' hsa hr] at h ⊢
        obtain ⟨h1, h2, h3⟩ := ih (n + 1) (ws ++ [waitExponential n]) e h
        refine ⟨by omega, ?_, h3⟩
        have : n + (fuel + 1) = (n + 1) + fuel := by omega
        rw [this]
        exact h2
      | false =>
        rw [sendGo_raises_nonretry streams (fuel + 1) n ws e' hsa hr] at h
        exact absurd h (by simp)

lemma sendGo_baseErr_char (streams : Nat → StreamBehavior) :
    ∀ fuel n ws e, (sendGo streams fuel n ws).outcome = .err (.base e) →
      sendRetryable e = false ∧
      sendAttempt (streams ((sendGo streams fuel n ws).attempts)) = .raises e := by
  intro fuel
  induction fuel with
  | zero =>
    intro n ws e h
    cases hsa : sendAttempt (streams n) with
    | ok r => rw [sendGo_ok streams 0 n ws r hsa] at h; exact absurd h (by simp)
    | hangs => rw [sendGo_hangStep streams 0 n ws hsa] at h; exact absurd h (by simp)
    | raises e' =>
      cases hr : sendRetryable e' with
      | true =>
        rw [sendGo_raises_zero streams n ws e' hsa hr] at h
        exact absurd h (by simp)
      | false =>
        rw [sendGo_raises_nonretry streams 0 n ws e' hsa hr] at h
        simp only [SROutcome.err.injEq, PyExc.base.injEq] at h
        subst h
        refine ⟨hr, ?_⟩
        rw [sendGo_raises_nonretry streams 0 n ws e' hsa hr]
        simpa using hsa
  | succ fuel ih =>
    intro n ws e h
    cases hsa : sendAttempt (streams n) with
    | ok r => rw [sendGo_ok streams (fuel + 1) n ws r hsa] at h; exact absurd h (by simp)
    | hangs => rw [sendGo_hangStep streams (fuel + 1) n ws hsa] at h; exact absurd h (by simp)
    | raises e' =>
      cases hr : sendRetryable e' with
      | true =>
        rw [sendGo_raises_step streams fuel n ws e' hsa hr] at h ⊢
        exact ih (n + 1) (ws ++ [waitExponential n]) e h
      | false =>
        rw [sendGo_raises_nonretry streams (fuel + 1) n ws e' hsa hr] at h
        simp only [SROutcome.err.injEq, PyExc.base.injEq] at h
        subst h
        refine ⟨hr, ?_⟩
        rw [sendGo_raises_nonretry streams (fuel + 1) n ws e' hsa hr]
        simpa using hsa

lemma executeGradingFlow_ne_hangs (env : CaseEnv) (b : Bool)
    (hnh : ∀ k, env.streams k ≠ .timesOutForever) :
    executeGradingFlow b env ≠ .hangs := by
  unfold executeGradingFlow
  split
  · simp
  · match env.promptFetch with
    | .error exc => simp
    | .ok p =>
      simp only
      have hno := sendGo_no_hangs env.streams hnh (Config.MAX_RETRIES - 1) 1 []
      match hout : (sendWithRetry env.streams).outcome with
      | .hangs => exact absurd hout hno
      | .err exc => simp
      | .ok r => cases hu : r.usage_metadata <;> simp [hu]

lemma downloadOne_events_cases (ok : String → Bool) (d u : String) :
    (downloadOne ok d u).2 = [] ∨
    (downloadOne ok d u).2 = [.downloadAttempt d, .docAttached d] ∨
    (downloadOne ok d u).2 = [.downloadAttempt d, .downloadWarning d] := by
  unfold downloadOne
  split
  · split <;> simp
  · simp

lemma downloadOne_pdfs_cases (ok : String → Bool) (d u : String) :
    (downloadOne ok d u).1 = [] ∨ (downloadOne ok d u).1 = [(d, d ++ ".pdf")] := by
  unfold downloadOne
  split
  · split <;> simp
  · simp

lemma statusTrace_downloadDocs (ok : String → Bool) (L : List (String × String)) :
    statusTrace (downloadDocs ok L).2 = [] := by
  induction L with
  | nil => rfl
  | cons p rest ih =>
    show statusTrace ((downloadOne ok p.1 p.2).2 ++ (downloadDocs ok rest).2) = []
    rw [statusTrace_append, ih]
    rcases downloadOne_events_cases ok p.1 p.2 with h | h | h <;> simp [h, statusTrace]

lemma modelInvoked_not_mem_downloadDocs (ok : String → Bool) (L : List (String × String)) :
    Event.modelInvoked ∉ (downloadDocs ok L).2 := by
  induction L with
  | nil => simp [downloadDocs]
  | cons p rest ih =>
    show Event.modelInvoked ∉ (downloadOne ok p.1 p.2).2 ++ (downloadDocs ok rest).2
    rw [List.mem_append]
    rintro (h | h)
    · rcases downloadOne_events_cases ok p.1 p.2 with hc | hc | hc <;> rw [hc] at h <;> simp at h
    · exact ih h

lemma error_prefix_ne_completed (r : String) : "ERROR: " ++ r ≠ "COMPLETED" := by
  intro h
  have h3 : "ERROR: ".data ++ r.data = "COMPLETED".data := congrArg String.data h
  have h4 := congrArg List.head? h3
  simp at h4

lemma initChat_isError (x : String) :
    isErrorStatus ("ERROR: No se pudo iniciar chat - " ++ x) := by
  refine ⟨"No se pudo iniciar chat - " ++ x, ?_⟩
  rw [← String.append_assoc]
  congr 1

lemma processSingleCase_nil_initFail (env : CaseEnv) (row : RowData) (e : PyErr)
    (hor : env.oracle = []) (hsi : env.sessionInitResult = some e) :
    processSingleCase env row =
      (.done, [.sessionInitFailed,
               .statusWrite ("ERROR: No se pudo iniciar chat - " ++ (pyStr e).take 40)]) := by
  simp only [processSingleCase, hsi, hor]
  rw [show emit .sessionInitFailed ⟨[], []⟩ = (⟨[], [.sessionInitFailed]⟩ : CaseSt) from rfl]
  rw [updateStatus_nil]
  rfl

@[simp] lemma emit_def (e : Event) (st : CaseSt) :
    emit e st = ⟨st.oracle, st.events ++ [e]⟩ := rfl

lemma processSingleCase_nil_noDocs (env : CaseEnv) (row : RowData)
    (hor : env.oracle = []) (hsi : env.sessionInitResult = none)
    (hdl : (downloadDocs env.downloadOk (docsToDownload row.links)).1 = []) :
    processSingleCase env row =
      (.done, [.sessionInitOk, .processingStart] ++
        (downloadDocs env.downloadOk (docsToDownload row.links)).2 ++
        [.statusWrite ("ERROR: " ++
          ("No se pudieron descargar documentos válidos para el cliente.".take 50))]) := by
  simp only [processSingleCase, hsi, hor, emit_def, List.nil_append, markProcessingStart_nil,
    hdl, List.isEmpty_nil, if_true]
  rw [caseExcept_nil]
  simp [pyStrExc, pyStr, List.append_assoc]

lemma processSingleCase_nil_gfErr (env : CaseEnv) (row : RowData) (exc : PyExc)
    (hor : env.oracle = []) (hsi : env.sessionInitResult = none)
    (hdl : (downloadDocs env.downloadOk (docsToDownload row.links)).1 ≠ [])
    (hgf : executeGradingFlow true env = .err exc) :
    processSingleCase env row =
      (.done, [.sessionInitOk, .processingStart] ++
        (downloadDocs env.downloadOk (docsToDownload row.links)).2 ++
        [.modelInvoked, .statusWrite ("ERROR: " ++ (pyStrExc exc).take 50)]) := by
  simp only [processSingleCase, hsi, hor, emit_def, List.nil_append, markProcessingStart_nil,
    List.isEmpty_eq_true, hdl, if_false, hgf]
  rw [caseExcept_nil]
  simp [List.append_assoc]

lemma processSingleCase_nil_gfHangs (env : CaseEnv) (row : RowData)
    (hor : env.oracle = []) (hsi : env.sessionInitResult = none)
    (hdl : (downloadDocs env.downloadOk (docsToDownload row.links)).1 ≠ [])
    (hgf : executeGradingFlow true env = .hangs) :
    processSingleCase env row =
      (.hangs, [.sessionInitOk, .processingStart] ++
        (downloadDocs env.downloadOk (docsToDownload row.links)).2 ++ [.modelInvoked]) := by
  simp only [processSingleCase, hsi, hor, emit_def, List.nil_append, markProcessingStart_nil,
    List.isEmpty_eq_true, hdl, if_false, hgf]
  simp [List.append_assoc]

lemma processSingleCase_nil_saveFail (env : CaseEnv) (row : RowData)
    (text : String) (tk : Nat × Nat) (md : String) (e : PyErr)
    (hor : env.oracle = []) (hsi : env.sessionInitResult = none)
    (hdl : (downloadDocs env.downloadOk (docsToDownload row.links)).1 ≠ [])
    (hgf : executeGradingFlow true env = .ok text tk md)
    (hls : env.localSaveResult = some e) :
    processSingleCase env row =
      (.done, [.sessionInitOk, .processingStart] ++
        (downloadDocs env.downloadOk (docsToDownload row.links)).2 ++
        [.modelInvoked, .statusWrite ("ERROR: " ++ (pyStr e).take 50)]) := by
  simp only [processSingleCase, hsi, hor, emit_def, List.nil_append, markProcessingStart_nil,
    List.isEmpty_eq_true, hdl, if_false, hgf, hls]
  rw [caseExcept_nil]
  simp [pyStrExc, List.append_assoc]

lemma processSingleCase_nil_uploadFail (env : CaseEnv) (row : RowData)
    (text : String) (tk : Nat × Nat) (md : String) (e : PyErr)
    (hor : env.oracle = []) (hsi : env.sessionInitResult = none)
    (hdl : (downloadDocs env.downloadOk (docsToDownload row.links)).1 ≠ [])
    (hgf : executeGradingFlow true env = .ok text tk md)
    (hls : env.localSaveResult = none) (hup : env.uploadResult = some e) :
    processSingleCase env row =
      (.done, [.sessionInitOk, .processingStart] ++
        (downloadDocs env.downloadOk (docsToDownload row.links)).2 ++
        [.modelInvoked, .localSave, .statusWrite ("ERROR: " ++ (pyStr e).take 50)]) := by
  simp only [processSingleCase, hsi, hor, emit_def, List.nil_append, markProcessingStart_nil,
    List.isEmpty_eq_true, hdl, if_false, hgf, hls, hup]
  rw [caseExcept_nil]
  simp [pyStrExc, List.append_assoc]

lemma processSingleCase_nil_success (env : CaseEnv) (row : RowData)
    (text : String) (tk : Nat × Nat) (md : String)
    (hor : env.oracle = []) (hsi : env.sessionInitResult = none)
    (hdl : (downloadDocs env.downloadOk (docsToDownload row.links)).1 ≠ [])
    (hgf : executeGradingFlow true env = .ok text tk md)
    (hls : env.localSaveResult = none) (hup : env.uploadResult = none) :
    processSingleCase env row =
      (.done, [.sessionInitOk, .processingStart] ++
        (downloadDocs env.downloadOk (docsToDownload row.links)).2 ++
        [.modelInvoked, .localSave, .upload, .resultsWrite, .statusWrite "COMPLETED"]) := by
  simp only [processSingleCase, hsi, hor, emit_def, List.nil_append, markProcessingStart_nil,
    List.isEmpty_eq_true, hdl, if_false, hgf, hls, hup]
  rw [writeGradingResults_nil]
  simp [List.append_assoc]

/-- A provider stream that fails with a `ConnectionError` on every attempt. -/
def alwaysConnError : Nat → StreamBehavior := fun _ => .errors [] .connectionError

/-- A provider stream whose every attempt completes with a single text-less,
safety-blocked chunk. -/
def blockedStream : Nat → StreamBehavior :=
  fun _ => .completes [⟨none, [some "SAFETY_BLOCKED"], none⟩]

/-- C5 (code bug): when the stream never finishes, the assembler hangs in the
`ThreadPoolExecutor` shutdown instead of failing with the timeout error — the
`with` block joins the abandoned worker thread.  When the worker does finish
late, a `TimeoutError` is raised and none of the partial text is returned (a
retried attempt starts from a fresh, empty chunk accumulation). -/
theorem streaming_timeout_C5_bug :
    sendAttempt .timesOutForever = .hangs ∧
    sendAttempt (.timesOutThenFinishes [⟨some "texto parcial", [], none⟩]) =
      .raises (.timeoutError "Timeout alcanzado esperando al modelo.") := by
  constructor <;> rfl

/-- C6 (amended): retry is decided by exception class, not by the spec's
semantic classification.  `create_cache` retries every exception — including
authentication/configuration errors; the model-call wrapper retries exactly
the `GoogleAPIError` family (which contains the invalid-argument and
authentication subclasses) plus `TimeoutError` and `ConnectionError`, and
never retries anything else — in particular not the empty/blocked-response
`ValueError`. -/
theorem retry_classification_C6 :
    (∀ e, cacheRetryable e = true) ∧
    (∀ s, sendRetryable (.googleAPIError s) = true) ∧
    (∀ m, sendRetryable (.timeoutError m) = true) ∧
    sendRetryable .connectionError = true ∧
    (∀ m, sendRetryable (.valueError m) = false) ∧
    sendRetryable .attributeError = false ∧
    (∀ n, sendRetryable (.otherError n) = false) :=
  ⟨fun _ => rfl, fun _ => rfl, fun _ => rfl, rfl, fun _ => rfl, rfl, fun _ => rfl⟩

/-- C6 counterexample: an authentication error (`Unauthenticated`, a
`GoogleAPIError` subclass) IS retried both by the cache-creation wrapper
(which retries `(Exception,)`) and by the model-call wrapper, and so is the
malformed-input `InvalidArgument` — contradicting the claim that such errors
are never retried. -/
theorem retry_classification_C6_cex :
    cacheRetryable (.googleAPIError .unauthenticated) = true ∧
    sendRetryable (.googleAPIError .unauthenticated) = true ∧
    sendRetryable (.googleAPIError .invalidArgument) = true := by
  decide

/-- C6 witness: the amended classification evaluated at concrete errors. -/
theorem retry_classification_C6_witness :
    cacheRetryable (.valueError "entrada inválida") = true ∧
    sendRetryable (.valueError "entrada inválida") = false ∧
    sendRetryable .connectionError = true :=
  ⟨retry_classification_C6.1 _, retry_classification_C6.2.2.2.2.1 "entrada inválida",
   retry_classification_C6.2.2.2.1⟩

/-- C7 (amended): across one tenacity-wrapped model call, the attempt count is
capped at `MAX_RETRIES`; the waits slept between consecutive attempts follow
`wait_exponential` with floor `RETRY_MIN_WAIT` and ceiling `RETRY_MAX_WAIT`,
are non-decreasing, and stay within those bounds; exhausting the attempts
surfaces a `tenacity.RetryError` wrapping the last exception (same kind
inside the wrapper, but the surfaced exception is `RetryError`, not the
original), while a non-retryable error surfaces unchanged. -/
theorem backoff_policy_C7 (streams : Nat → StreamBehavior) :
    1 ≤ (sendWithRetry streams).attempts ∧
    (sendWithRetry streams).attempts ≤ Config.MAX_RETRIES ∧
    (sendWithRetry streams).waits =
      (List.range ((sendWithRetry streams).attempts - 1)).map (fun i => waitExponential (1 + i)) ∧
    List.Pairwise (· ≤ ·) (sendWithRetry streams).waits ∧
    (∀ w ∈ (sendWithRetry streams).waits,
      Config.RETRY_MIN_WAIT ≤ w ∧ w ≤ Config.RETRY_MAX_WAIT) ∧
    (∀ e, (sendWithRetry streams).outcome = .err (.retryError e) →
      (sendWithRetry streams).attempts = Config.MAX_RETRIES ∧
      sendAttempt (streams Config.MAX_RETRIES) = .raises e ∧ sendRetryable e = true) ∧
    (∀ e, (sendWithRetry streams).outcome = .err (.base e) → sendRetryable e = false) := by
  unfold sendWithRetry
  have hge := sendGo_attempts_ge streams (Config.MAX_RETRIES - 1) 1 []
  have hle := sendGo_attempts_le streams (Config.MAX_RETRIES - 1) 1 []
  have hwaits := sendGo_waits_eq streams (Config.MAX_RETRIES - 1) 1 []
  simp only [List.nil_append] at hwaits
  refine ⟨hge, ?_, hwaits, ?_, ?_, ?_, ?_⟩
  · simpa [Config.MAX_RETRIES] using hle
  · rw [hwaits]
    exact (List.pairwise_lt_range _).map _
      (fun a b hab => waitExponential_mono (by omega))
  · intro w hw
    rw [hwaits] at hw
    simp only [List.mem_map] at hw
    obtain ⟨i, _, rfl⟩ := hw
    exact ⟨waitExponential_ge _, waitExponential_le _⟩
  · intro e h
    obtain ⟨h1, h2, h3⟩ := sendGo_retryError_char streams (Config.MAX_RETRIES - 1) 1 [] e h
    refine ⟨?_, ?_, h3⟩
    · rw [h1]; decide
    · have hmr : 1 + (Config.MAX_RETRIES - 1) = Config.MAX_RETRIES := by
        simp [Config.MAX_RETRIES]
      rw [← hmr]
      exact h2
  · intro e h
    exact (sendGo_baseErr_char streams (Config.MAX_RETRIES - 1) 1 [] e h).1

/-- C7 counterexample: with a connection error on all seven attempts the
caller receives `tenacity.RetryError`, not a `ConnectionError` — the surfaced
error is NOT "the last error unchanged in kind" (tenacity's default
`reraise=False` wraps it). -/
theorem backoff_policy_C7_cex :
    sendWithRetry alwaysConnError =
      ⟨.err (.retryError .connectionError), 7, [5, 5, 5, 8, 16, 32]⟩ ∧
    PyExc.retryError .connectionError ≠ PyExc.base .connectionError := by
  constructor <;> decide

/-- C7 witness: the amended backoff properties at a concrete failing stream. -/
theorem backoff_policy_C7_witness :
    1 ≤ (sendWithRetry alwaysConnError).attempts ∧
    (sendWithRetry alwaysConnError).attempts ≤ Config.MAX_RETRIES ∧
    (sendWithRetry alwaysConnError).waits =
      (List.range ((sendWithRetry alwaysConnError).attempts - 1)).map
        (fun i => waitExponential (1 + i)) ∧
    List.Pairwise (· ≤ ·) (sendWithRetry alwaysConnError).waits ∧
    (∀ w ∈ (sendWithRetry alwaysConnError).waits,
      Config.RETRY_MIN_WAIT ≤ w ∧ w ≤ Config.RETRY_MAX_WAIT) ∧
    (∀ e, (sendWithRetry alwaysConnError).outcome = .err (.retryError e) →
      (sendWithRetry alwaysConnError).attempts = Config.MAX_RETRIES ∧
      sendAttempt (alwaysConnError Config.MAX_RETRIES) = .raises e ∧ sendRetryable e = true) ∧
    (∀ e, (sendWithRetry alwaysConnError).outcome = .err (.base e) → sendRetryable e = false) :=
  backoff_policy_C7 alwaysConnError

/-- C2 (amended): the reported token counts come from the final chunk's
`usage_metadata` exactly as delivered — there is no character-count
(`len(text) // 4`) estimation anywhere: an absent (`None`) usage payload makes
the token read fail with `AttributeError`, and an unset (default/zeroed)
payload is reported verbatim. -/
theorem token_fallback_C2 (env : CaseEnv) (chunks : List Chunk)
    (hp : ∃ p, env.promptFetch = .ok p)
    (hs1 : env.streams 1 = .completes chunks)
    (hne : assembledText chunks ≠ "") :
    ((chunks.getLastD ⟨none, [], none⟩).usage_metadata = none →
      executeGradingFlow true env = .err (.base .attributeError)) ∧
    (∀ u, (chunks.getLastD ⟨none, [], none⟩).usage_metadata = some u →
      executeGradingFlow true env =
        .ok (assembledText chunks) (u.prompt_token_count, u.candidates_token_count)
          (cleanModelName env.modelName)) := by
  obtain ⟨p, hpf⟩ := hp
  have hcne : chunks.isEmpty = false := by
    cases chunks with
    | nil => exact absurd rfl hne
    | cons a l => rfl
  have hsa : sendAttempt (env.streams 1) =
      .ok ⟨assembledText chunks, (chunks.getLastD ⟨none, [], none⟩).usage_metadata⟩ := by
    rw [hs1]
    unfold sendAttempt
    simp [hcne, hne]
  have hsend : sendGo env.streams (Config.MAX_RETRIES - 1) 1 [] =
      ⟨.ok ⟨assembledText chunks, (chunks.getLastD ⟨none, [], none⟩).usage_metadata⟩, 1, []⟩ :=
    sendGo_ok env.streams _ 1 [] _ hsa
  constructor
  · intro hu
    simp only [List.getLastD_eq_getLast?] at hu
    simp [executeGradingFlow, sendWithRetry, hpf, hsend, hu]
  · intro u hu
    simp only [List.getLastD_eq_getLast?] at hu
    simp [executeGradingFlow, sendWithRetry, hpf, hsend, hu]

/-- Environment for the C2 scenario: every chunk carries an unset (zeroed)
usage payload and eight characters of text. -/
def envC2 : CaseEnv where
  sessionInitResult := none
  downloadOk := fun _ => true
  promptFetch := .ok "PROMPT"
  streams := fun _ => .completes [⟨some "abcdefgh", [], some ⟨0, 0⟩⟩]
  modelName := "gemini-2.5-flash"
  localSaveResult := none
  uploadResult := none
  oracle := []

/-- C2 counterexample: with usage metadata effectively absent (unset/zero) on
every chunk of an 8-character response, the code reports `output_tokens = 0`,
not the claimed `len(text) // 4 = 2`. -/
theorem token_fallback_C2_cex :
    executeGradingFlow true envC2 = .ok "abcdefgh" (0, 0) "gemini-2.5-flash" ∧
    (0 : Nat) ≠ "abcdefgh".length / 4 := by
  constructor <;> decide

/-- C2 witness: the amended token-accounting theorem at the concrete
environment. -/
theorem token_fallback_C2_witness :
    executeGradingFlow true envC2 =
      .ok (assembledText [⟨some "abcdefgh", [], some ⟨0, 0⟩⟩]) (0, 0)
        (cleanModelName envC2.modelName) :=
  (token_fallback_C2 envC2 [⟨some "abcdefgh", [], some ⟨0, 0⟩⟩]
    ⟨"PROMPT", rfl⟩ rfl (by decide)).2 ⟨0, 0⟩ rfl

/-- C1 (amended): a stream whose assembled text is empty makes the assembler
raise a `ValueError` (carrying the finish reason when at least one chunk
arrived); `ValueError` is NOT among the retryable exception classes, so the
call surfaces after exactly one attempt instead of being retried; the case
then ends with an `ERROR:` status — not `COMPLETED` and with no retry loop. -/
theorem empty_response_C1 (env : CaseEnv) (row : RowData) (chunks : List Chunk)
    (hor : env.oracle = []) (hsi : env.sessionInitResult = none)
    (hdl : (downloadDocs env.downloadOk (docsToDownload row.links)).1 ≠ [])
    (hp : ∃ p, env.promptFetch = .ok p)
    (hs1 : env.streams 1 = .completes chunks)
    (hnotext : ∀ c ∈ chunks, ∀ t, c.text = some t → t = "") :
    (sendWithRetry env.streams).attempts = 1 ∧
    (∃ m, (sendWithRetry env.streams).outcome = .err (.base (.valueError m))) ∧
    (processSingleCase env row).1 = .done ∧
    (∃ s, statusTrace (processSingleCase env row).2 = ["PROCESSING", s] ∧
      isErrorStatus s ∧ s ≠ "COMPLETED") := by
  obtain ⟨p, hpf⟩ := hp
  obtain ⟨m, hm⟩ := sendAttempt_noText chunks hnotext
  have hsa : sendAttempt (env.streams 1) = .raises (.valueError m) := by rw [hs1]; exact hm
  have hsend : sendGo env.streams (Config.MAX_RETRIES - 1) 1 [] =
      ⟨.err (.base (.valueError m)), 1, []⟩ :=
    sendGo_raises_nonretry env.streams _ 1 [] _ hsa rfl
  have hgf : executeGradingFlow true env = .err (.base (.valueError m)) := by
    simp [executeGradingFlow, sendWithRetry, hpf, hsend]
  have heq := processSingleCase_nil_gfErr env row (.base (.valueError m)) hor hsi hdl hgf
  refine ⟨?_, ⟨m, ?_⟩, ?_, ?_⟩
  · show (sendGo env.streams (Config.MAX_RETRIES - 1) 1 []).attempts = 1
    rw [hsend]
  · show (sendGo env.streams (Config.MAX_RETRIES - 1) 1 []).outcome = _
    rw [hsend]
  · rw [heq]
  · refine ⟨"ERROR: " ++ (pyStrExc (.base (.valueError m))).take 50, ?_,
      ⟨(pyStrExc (.base (.valueError m))).take 50, rfl⟩, error_prefix_ne_completed _⟩
    rw [heq]
    simp only [statusTrace_append, statusTrace_downloadDocs]
    simp [statusTrace]

/-- Environment for the C1 scenario: every model-call attempt completes with a
single text-less chunk whose finish reason is `SAFETY_BLOCKED`. -/
def envC1 : CaseEnv where
  sessionInitResult := none
  downloadOk := fun _ => true
  promptFetch := .ok "PROMPT"
  streams := blockedStream
  modelName := "gemini-2.5-flash"
  localSaveResult := none
  uploadResult := none
  oracle := []

/-- A concrete pending work-queue row with one resolvable transcript link. -/
def rowW : RowData :=
  ⟨2, "c1", "Cliente Uno", "VAWA",
   ⟨"https://docs.google.com/document/d/abc123", "", "", "", "", "", ""⟩⟩

/-- C1 counterexample: a blocked (empty-text) response raises the
empty/blocked `ValueError` and is surfaced after exactly ONE attempt — it is
not retried at all (`1 < MAX_RETRIES = 7`), contradicting the claim that this
failure class is retried by the backoff policy. -/
theorem empty_response_C1_cex :
    (sendWithRetry blockedStream).attempts = 1 ∧
    (sendWithRetry blockedStream).outcome =
      .err (.base (.valueError
        "Vertex AI bloqueó la respuesta. finish_reason=SAFETY_BLOCKED")) ∧
    1 < Config.MAX_RETRIES := by
  refine ⟨by decide, by decide, by decide⟩

/-- C1 witness: the amended empty-response behaviour at the concrete
environment. -/
theorem empty_response_C1_witness :
    (sendWithRetry envC1.streams).attempts = 1 ∧
    (∃ m, (sendWithRetry envC1.streams).outcome = .err (.base (.valueError m))) ∧
    (processSingleCase envC1 rowW).1 = .done ∧
    (∃ s, statusTrace (processSingleCase envC1 rowW).2 = ["PROCESSING", s] ∧
      isErrorStatus s ∧ s ≠ "COMPLETED") :=
  empty_response_C1 envC1 rowW [⟨none, [some "SAFETY_BLOCKED"], none⟩]
    rfl rfl (by decide) ⟨"PROMPT", rfl⟩ rfl (by decide)

/-- C3 (amended): session acquisition happens BEFORE the `PROCESSING` mark,
and when it fails the terminal `ERROR` status is written directly from
`PENDING` (the row is never marked `PROCESSING`).  When session acquisition
succeeds and every sheet write succeeds, the per-case status sequence is
exactly `[PROCESSING, COMPLETED]` or `[PROCESSING, ERROR: …]`: `PROCESSING`
(with its start timestamp) precedes any terminal write, and no status is
written after the terminal one within the run. -/
theorem case_status_C3 (env : CaseEnv) (row : RowData)
    (hor : env.oracle = []) (hnh : ∀ k, env.streams k ≠ .timesOutForever) :
    (processSingleCase env row).1 = .done ∧
    (∀ e, env.sessionInitResult = some e →
      statusTrace (processSingleCase env row).2 =
        ["ERROR: No se pudo iniciar chat - " ++ (pyStr e).take 40]) ∧
    (env.sessionInitResult = none →
      statusTrace (processSingleCase env row).2 = ["PROCESSING", "COMPLETED"] ∨
      ∃ s, statusTrace (processSingleCase env row).2 = ["PROCESSING", s] ∧
        isErrorStatus s ∧ s ≠ "COMPLETED") := by
  cases hsi : env.sessionInitResult with
  | some e =>
    have heq := processSingleCase_nil_initFail env row e hor hsi
    rw [heq]
    refine ⟨rfl, ?_, ?_⟩
    · intro e' he'
      injection he' with h
      subst h
      simp [statusTrace]
    · intro h
      exact Option.noConfusion h
  | none =>
    have hvac : ∀ e' : PyErr, (none : Option PyErr) = some e' →
        statusTrace (processSingleCase env row).2 =
          ["ERROR: No se pudo iniciar chat - " ++ (pyStr e').take 40] :=
      fun e' he' => Option.noConfusion he'
    by_cases hdl : (downloadDocs env.downloadOk (docsToDownload row.links)).1 = []
    · have heq := processSingleCase_nil_noDocs env row hor hsi hdl
      refine ⟨by rw [heq], hvac, fun _ => Or.inr ?_⟩
      refine ⟨"ERROR: " ++ ("No se pudieron descargar documentos válidos para el cliente.".take 50),
        ?_, ⟨_, rfl⟩, error_prefix_ne_completed _⟩
      rw [heq]
      simp only [statusTrace_append, statusTrace_downloadDocs]
      simp [statusTrace]
    · cases hgf : executeGradingFlow true env with
      | hangs => exact absurd hgf (executeGradingFlow_ne_hangs env true hnh)
      | err exc =>
        have heq := processSingleCase_nil_gfErr env row exc hor hsi hdl hgf
        refine ⟨by rw [heq], hvac, fun _ => Or.inr ?_⟩
        refine ⟨"ERROR: " ++ (pyStrExc exc).take 50, ?_, ⟨_, rfl⟩, error_prefix_ne_completed _⟩
        rw [heq]
        simp only [statusTrace_append, statusTrace_downloadDocs]
        simp [statusTrace]
      | ok text tk md =>
        cases hls : env.localSaveResult with
        | some e =>
          have heq := processSingleCase_nil_saveFail env row text tk md e hor hsi hdl hgf hls
          refine ⟨by rw [heq], hvac, fun _ => Or.inr ?_⟩
          refine ⟨"ERROR: " ++ (pyStr e).take 50, ?_, ⟨_, rfl⟩, error_prefix_ne_completed _⟩
          rw [heq]
          simp only [statusTrace_append, statusTrace_downloadDocs]
          simp [statusTrace]
        | none =>
          cases hup : env.uploadResult with
          | some e =>
            have heq := processSingleCase_nil_uploadFail env row text tk md e hor hsi hdl hgf hls hup
            refine ⟨by rw [heq], hvac, fun _ => Or.inr ?_⟩
            refine ⟨"ERROR: " ++ (pyStr e).take 50, ?_, ⟨_, rfl⟩, error_prefix_ne_completed _⟩
            rw [heq]
            simp only [statusTrace_append, statusTrace_downloadDocs]
            simp [statusTrace]
          | none =>
            have heq := processSingleCase_nil_success env row text tk md hor hsi hdl hgf hls hup
            refine ⟨by rw [heq], hvac, fun _ => Or.inl ?_⟩
            rw [heq]
            simp only [statusTrace_append, statusTrace_downloadDocs]
            simp [statusTrace]

/-- Environment of a case in which everything succeeds. -/
def envOkW : CaseEnv where
  sessionInitResult := none
  downloadOk := fun _ => true
  promptFetch := .ok "PROMPT"
  streams := fun _ => .completes [⟨some "Informe extenso del caso", [], some ⟨120, 2400⟩⟩]
  modelName := "gemini-2.5-flash"
  localSaveResult := none
  uploadResult := none
  oracle := []

/-- Environment of a case whose session initialization fails. -/
def envInitFailW : CaseEnv where
  sessionInitResult := some (.valueError "boom")
  downloadOk := fun _ => true
  promptFetch := .ok "PROMPT"
  streams := fun _ => .completes [⟨some "x", [], some ⟨1, 1⟩⟩]
  modelName := "m"
  localSaveResult := none
  uploadResult := none
  oracle := []

/-- C3 counterexample: when session initialization fails, the terminal
`ERROR` status is written while the row is still `PENDING` — `PROCESSING` is
never written even though the coordinator selected the row, contradicting
both "PROCESSING before any other per-case step including session
acquisition" and "a terminal status is only ever written from PROCESSING". -/
theorem case_status_C3_cex :
    processSingleCase envInitFailW rowW =
      (.done, [.sessionInitFailed, .statusWrite "ERROR: No se pudo iniciar chat - boom"]) ∧
    statusTrace (processSingleCase envInitFailW rowW).2 =
      ["ERROR: No se pudo iniciar chat - boom"] ∧
    "PROCESSING" ∉ statusTrace (processSingleCase envInitFailW rowW).2 := by
  refine ⟨by decide, by decide, by decide⟩

/-- C3 witness: the amended status-trace characterization at a fully
successful concrete case. -/
theorem case_status_C3_witness :
    (processSingleCase envOkW rowW).1 = .done ∧
    (∀ e, envOkW.sessionInitResult = some e →
      statusTrace (processSingleCase envOkW rowW).2 =
        ["ERROR: No se pudo iniciar chat - " ++ (pyStr e).take 40]) ∧
    (envOkW.sessionInitResult = none →
      statusTrace (processSingleCase envOkW rowW).2 = ["PROCESSING", "COMPLETED"] ∨
      ∃ s, statusTrace (processSingleCase envOkW rowW).2 = ["PROCESSING", s] ∧
        isErrorStatus s ∧ s ≠ "COMPLETED") :=
  case_status_C3 envOkW rowW rfl (fun k h => by simp [envOkW] at h)

/-- Per-case environments of the C4 scenario: row 2's session initialization
fails and the subsequent unguarded `ERROR` status write also fails (with an
exception outside the retryable classes, e.g. a gspread `APIError`, which is
not a `google.api_core` `GoogleAPIError`); row 3 would succeed. -/
def caseEnvRow2 : CaseEnv where
  sessionInitResult := some (.valueError "sin credenciales")
  downloadOk := fun _ => true
  promptFetch := .ok "P"
  streams := fun _ => .completes [⟨some "x", [], some ⟨1, 1⟩⟩]
  modelName := "m"
  localSaveResult := none
  uploadResult := none
  oracle := [some (.otherError "gspread APIError")]

/-- A fully healthy per-case environment for row 3. -/
def caseEnvRow3 : CaseEnv where
  sessionInitResult := none
  downloadOk := fun _ => true
  promptFetch := .ok "P"
  streams := fun _ => .completes [⟨some "Informe", [], some ⟨1, 1⟩⟩]
  modelName := "m"
  localSaveResult := none
  uploadResult := none
  oracle := []

/-- A work sheet with a header row and two pending rows (rows 2 and 3). -/
def sheetC4 : List (List String) :=
  [["CLIENT ID", "CLIENT NAME", "STATUS"],
   ["idA", "Ana", "PENDING PROCESSING"],
   ["idB", "Bea", "PENDING PROCESSING"]]

/-- The C4 run environment. -/
def runEnvC4 : RunEnv where
  cacheResult := none
  fetchResult := .ok sheetC4
  caseEnv := fun i => if i = 2 then caseEnvRow2 else caseEnvRow3

/-- C4 (code bug): the `ERROR` status write in the session-init failure
handler of `process_single_case` is not guarded; when it raises, the
exception escapes the per-case handler and aborts the whole run — row 3, also
pending, is never processed, contradicting "one case's failure never aborts
the run". -/
theorem run_isolation_C4_bug :
    (runGP runEnvC4).1 = .raised (.base (.otherError "gspread APIError")) ∧
    (runGP runEnvC4).2 = [(2, .sessionInitFailed)] ∧
    (getPendingRows sheetC4).toOption.map (fun l => l.map RowData.row_idx) = some [2, 3] := by
  refine ⟨by decide, by decide, by decide⟩

/-- C8 (confirmed): a document link longer than five characters whose download
fails is logged with a warning and omitted; when zero documents resolve the
case never reaches the model-invocation step and terminates with the
document-resolution `ERROR` reason; when at least one document resolves, the
model invocation is reached. -/
theorem doc_resolution_C8 (env : CaseEnv) (row : RowData)
    (hor : env.oracle = []) (hsi : env.sessionInitResult = none) :
    (∀ d u, (d, u) ∈ docsToDownload row.links → u.length > 5 → env.downloadOk d = false →
      downloadOne env.downloadOk d u = ([], [.downloadAttempt d, .downloadWarning d])) ∧
    ((downloadDocs env.downloadOk (docsToDownload row.links)).1 = [] →
      Event.modelInvoked ∉ (processSingleCase env row).2 ∧
      (processSingleCase env row).1 = .done ∧
      statusTrace (processSingleCase env row).2 =
        ["PROCESSING",
         "ERROR: " ++ ("No se pudieron descargar documentos válidos para el cliente.".take 50)]) ∧
    ((downloadDocs env.downloadOk (docsToDownload row.links)).1 ≠ [] →
      Event.modelInvoked ∈ (processSingleCase env row).2) := by
  refine ⟨?_, ?_, ?_⟩
  · intro d u _ h5 hok
    have hne : u ≠ "" := by
      intro h
      subst h
      exact absurd h5 (by decide)
    unfold downloadOne
    rw [if_pos (⟨hne, h5⟩ : u ≠ "" ∧ u.length > 5)]
    simp [hok]
  · intro hdl
    have heq := processSingleCase_nil_noDocs env row hor hsi hdl
    refine ⟨?_, by rw [heq], ?_⟩
    · rw [heq]
      simp [modelInvoked_not_mem_downloadDocs env.downloadOk (docsToDownload row.links)]
    · rw [heq]
      simp only [statusTrace_append, statusTrace_downloadDocs]
      simp [statusTrace]
  · intro hdl
    cases hgf : executeGradingFlow true env with
    | hangs =>
      have heq := processSingleCase_nil_gfHangs env row hor hsi hdl hgf
      rw [heq]
      simp
    | err exc =>
      have heq := processSingleCase_nil_gfErr env row exc hor hsi hdl hgf
      rw [heq]
      simp
    | ok text tk md =>
      cases hls : env.localSaveResult with
      | some e =>
        have heq := processSingleCase_nil_saveFail env row text tk md e hor hsi hdl hgf hls
        rw [heq]
        simp
      | none =>
        cases hup : env.uploadResult with
        | some e =>
          have heq := processSingleCase_nil_uploadFail env row text tk md e hor hsi hdl hgf hls hup
          rw [heq]
          simp
        | none =>
          have heq := processSingleCase_nil_success env row text tk md hor hsi hdl hgf hls hup
          rw [heq]
          simp

/-- Environment of a case where every download attempt fails. -/
def envAllFailW : CaseEnv where
  sessionInitResult := none
  downloadOk := fun _ => false
  promptFetch := .ok "PROMPT"
  streams := fun _ => .completes [⟨some "Informe", [], some ⟨1, 1⟩⟩]
  modelName := "m"
  localSaveResult := none
  uploadResult := none
  oracle := []

/-- C8 witness: the zero-documents-resolve behaviour at a concrete case whose
only link fails to download. -/
theorem doc_resolution_C8_witness :
    Event.modelInvoked ∉ (processSingleCase envAllFailW rowW).2 ∧
    (processSingleCase envAllFailW rowW).1 = .done ∧
    statusTrace (processSingleCase envAllFailW rowW).2 =
      ["PROCESSING",
       "ERROR: " ++ ("No se pudieron descargar documentos válidos para el cliente.".take 50)] :=
  (doc_resolution_C8 envAllFailW rowW rfl rfl).2.1 (by decide)

lemma pyIndex_lt (l : List String) (i : Nat) (h : i < l.length) :
    pyIndex l i = .ok (l.getD i "") := by
  unfold pyIndex
  rw [dif_pos h]
  congr 1
  rw [List.getD_eq_getElem l "" h]
  simp [List.get_eq_getElem]

lemma colOrEmpty_eq (row : List String) (c : Nat) (hc : 1 ≤ c) :
    colOrEmpty row c = .ok (row.getD (c - 1) "") := by
  unfold colOrEmpty
  by_cases h : c ≤ row.length
  · rw [if_pos h, pyIndex_lt _ _ (by omega)]
  · rw [if_neg h, List.getD_eq_default _ _ (by omega)]

lemma gprGo_eq (l : List (List String)) : ∀ i, gprGo i l = .ok (selectedGo i l) := by
  induction l with
  | nil => intro i; rfl
  | cons row rest ih =>
    intro i
    by_cases h1 : i + 1 = 1
    · simp only [gprGo, selectedGo, h1, if_true]
      rw [ih 1]
      simp
    · simp only [gprGo, selectedGo]
      rw [if_neg h1]
      by_cases h2 : 3 ≤ row.length
      · rw [if_pos h2]
        simp only [pyIndex_lt row 2 (by omega)]
        by_cases h3 : pyStrip (row.getD 2 "") = "PENDING PROCESSING"
        · rw [if_pos h3, if_pos ⟨h1, h2, h3⟩]
          simp only [pyIndex_lt row 0 (by omega), pyIndex_lt row 1 (by omega),
            colOrEmpty_eq row 4 (by omega), colOrEmpty_eq row 5 (by omega),
            colOrEmpty_eq row 6 (by omega), colOrEmpty_eq row 7 (by omega),
            colOrEmpty_eq row 8 (by omega), colOrEmpty_eq row 9 (by omega),
            colOrEmpty_eq row 10 (by omega), colOrEmpty_eq row 11 (by omega)]
          rw [ih (i + 1)]
          simp only [rowToData]
          rfl
        · rw [if_neg h3, if_neg (fun hc => h3 hc.2.2)]
          exact ih (i + 1)
      · rw [if_neg h2, if_neg (fun hc => h2 hc.2.1)]
        exact ih (i + 1)


lemma runCases_touched (renv : RunEnv) :
    ∀ rows acc pr, pr ∈ (runCases renv rows acc).2 →
      pr ∈ acc ∨ pr.1 ∈ rows.map RowData.row_idx := by
  intro rows
  induction rows with
  | nil =>
    intro acc pr h
    simp only [runCases] at h
    exact Or.inl h
  | cons row rest ih =>
    intro acc pr h
    simp only [runCases] at h
    have hsplit : ∀ evs : List Event,
        pr ∈ acc ++ evs.map (fun e => (row.row_idx, e)) →
        pr ∈ acc ∨ pr.1 ∈ (row :: rest).map RowData.row_idx := by
      intro evs hm
      rcases List.mem_append.mp hm with hm | hm
      · exact Or.inl hm
      · obtain ⟨e, _, rfl⟩ := List.mem_map.mp hm
        simp
    rcases hpc : processSingleCase (renv.caseEnv row.row_idx) row with ⟨out, evs⟩
    rw [hpc] at h
    cases out with
    | done =>
      rcases ih (acc ++ evs.map fun e => (row.row_idx, e)) pr h with h' | h'
      · rcases hsplit evs h' with h'' | h''
        · exact Or.inl h''
        · exact Or.inr h''
      · exact Or.inr (by simp [h'])
    | raised exc => exact hsplit evs h
    | hangs => exact hsplit evs h

/-- C9 (amended): the pending-row scan never raises and selects exactly the
non-header rows long enough to hold a status column whose status cell, after
stripping surrounding whitespace, equals `PENDING PROCESSING`; identity and
link columns are read with missing trailing columns treated as blank; and a
run only ever touches rows it selected — all other rows, including
`PROCESSING` and `COMPLETED` ones, are untouched. -/
theorem pending_selection_C9 :
    (∀ values, getPendingRows values = .ok (selectedPendingRows values)) ∧
    (∀ (renv : RunEnv) values, renv.fetchResult = .ok values →
      ∀ pr ∈ (runGP renv).2, pr.1 ∈ (selectedPendingRows values).map RowData.row_idx) := by
  have hpart1 : ∀ values, getPendingRows values = .ok (selectedPendingRows values) :=
    fun values => gprGo_eq values 0
  refine ⟨hpart1, ?_⟩
  intro renv values hfetch pr hpr
  unfold runGP at hpr
  cases hc : renv.cacheResult with
  | some e => simp [hc] at hpr
  | none =>
    simp only [hc, hfetch, hpart1 values] at hpr
    rcases runCases_touched renv (selectedPendingRows values) [] pr hpr with h | h
    · simp at h
    · exact h

/-- A sheet whose only data row carries the pending marker with a trailing
space in its status cell. -/
def sheetC9 : List (List String) :=
  [["CLIENT ID", "CLIENT NAME", "STATUS"],
   ["c1", "Carla", "PENDING PROCESSING "]]

/-- C9 counterexample: the row whose raw status cell is
`"PENDING PROCESSING "` (trailing space) IS selected for processing even
though that cell does not equal the pending marker — `get_pending_rows`
compares after `strip()`. -/
theorem pending_selection_C9_cex :
    getPendingRows sheetC9 =
      .ok [⟨2, "c1", "Carla", "", ⟨"", "", "", "", "", "", ""⟩⟩] ∧
    sheetC9.getD 1 [] = ["c1", "Carla", "PENDING PROCESSING "] ∧
    "PENDING PROCESSING " ≠ "PENDING PROCESSING" := by
  refine ⟨by rfl, by rfl, by decide⟩

/-- C9 witness: the selection characterization and the untouched-rows
property at concrete inputs. -/
theorem pending_selection_C9_witness :
    getPendingRows sheetC4 = .ok (selectedPendingRows sheetC4) ∧
    ((2 : Nat), Event.sessionInitFailed).1 ∈ (selectedPendingRows sheetC4).map RowData.row_idx :=
  ⟨pending_selection_C9.1 sheetC4,
   pending_selection_C9.2 runEnvC4 sheetC4 rfl (2, .sessionInitFailed) (by decide)⟩

lemma downloadDocs_cons (ok : String → Bool) (p : String × String)
    (rest : List (String × String)) :
    downloadDocs ok (p :: rest) =
      ((downloadOne ok p.1 p.2).1 ++ (downloadDocs ok rest).1,
       (downloadOne ok p.1 p.2).2 ++ (downloadDocs ok rest).2) := rfl

lemma downloadDocs_not_mentioned (ok : String → Bool) (d : String) :
    ∀ L : List (String × String), d ∉ L.map Prod.fst →
      Event.downloadAttempt d ∉ (downloadDocs ok L).2 ∧
      Event.downloadWarning d ∉ (downloadDocs ok L).2 ∧
      ∀ p, (d, p) ∉ (downloadDocs ok L).1 := by
  intro L
  induction L with
  | nil =>
    intro _
    refine ⟨by simp [downloadDocs], by simp [downloadDocs], fun p => by simp [downloadDocs]⟩
  | cons q rest ih =>
    intro hd
    simp only [List.map_cons, List.mem_cons, not_or] at hd
    obtain ⟨hne, hdr⟩ := hd
    obtain ⟨ih1, ih2, ih3⟩ := ih hdr
    rw [downloadDocs_cons]
    refine ⟨?_, ?_, ?_⟩
    · simp only [List.mem_append, not_or]
      refine ⟨?_, ih1⟩
      rcases downloadOne_events_cases ok q.1 q.2 with h | h | h <;> rw [h] <;> simp [hne]
    · simp only [List.mem_append, not_or]
      refine ⟨?_, ih2⟩
      rcases downloadOne_events_cases ok q.1 q.2 with h | h | h <;> rw [h] <;> simp [hne]
    · intro p
      simp only [List.mem_append, not_or]
      refine ⟨?_, ih3 p⟩
      rcases downloadOne_pdfs_cases ok q.1 q.2 with h | h <;> rw [h] <;> simp [hne]

lemma downloadDocs_item_spec (ok : String → Bool) (d u : String) :
    ∀ L : List (String × String), (L.map Prod.fst).Nodup → (d, u) ∈ L →
      (u.length ≤ 5 →
        Event.downloadAttempt d ∉ (downloadDocs ok L).2 ∧
        Event.downloadWarning d ∉ (downloadDocs ok L).2 ∧
        ∀ p, (d, p) ∉ (downloadDocs ok L).1) ∧
      (u.length > 5 → ok d = false →
        Event.downloadWarning d ∈ (downloadDocs ok L).2 ∧
        ∀ p, (d, p) ∉ (downloadDocs ok L).1) := by
  intro L
  induction L with
  | nil => intro _ hmem; cases hmem
  | cons q rest ih =>
    intro hnd hmem
    simp only [List.map_cons, List.nodup_cons] at hnd
    obtain ⟨hd', hndr⟩ := hnd
    rcases List.mem_cons.mp hmem with heq | hmemr
    · have h1 : d = q.1 := by rw [← heq]
      have h2 : u = q.2 := by rw [← heq]
      obtain ⟨hr1, hr2, hr3⟩ := downloadDocs_not_mentioned ok d rest (h1 ▸ hd')
      rw [downloadDocs_cons]
      constructor
      · intro h5
        have hone : downloadOne ok q.1 q.2 = ([], []) := by
          unfold downloadOne
          rw [if_neg (fun hc => absurd hc.2 (by rw [← h2]; omega))]
        rw [hone]
        simp only [List.nil_append]
        exact ⟨hr1, hr2, hr3⟩
      · intro h5 hok
        have hu0 : q.2 ≠ "" := by
          rw [← h2]
          intro he
          rw [he] at h5
          exact absurd h5 (by decide)
        have hone : downloadOne ok q.1 q.2 =
            ([], [.downloadAttempt q.1, .downloadWarning q.1]) := by
          unfold downloadOne
          rw [if_pos ⟨hu0, by rw [← h2]; omega⟩, ← h1, hok]
          simp
        rw [hone]
        constructor
        · rw [h1]
          simp
        · intro p
          simp only [List.nil_append]
          exact hr3 p
    · have hdmem : d ∈ rest.map Prod.fst := by
        have := List.mem_map_of_mem Prod.fst hmemr
        simpa using this
      have hne : ¬ q.1 = d := fun h => hd' (h ▸ hdmem)
      obtain ⟨ihA, ihB⟩ := ih hndr hmemr
      rw [downloadDocs_cons]
      constructor
      · intro h5
        obtain ⟨a1, a2, a3⟩ := ihA h5
        refine ⟨?_, ?_, ?_⟩
        · simp only [List.mem_append, not_or]
          refine ⟨?_, a1⟩
          rcases downloadOne_events_cases ok q.1 q.2 with h | h | h <;> rw [h] <;>
            simp [hne, Ne.symm hne]
        · simp only [List.mem_append, not_or]
          refine ⟨?_, a2⟩
          rcases downloadOne_events_cases ok q.1 q.2 with h | h | h <;> rw [h] <;>
            simp [hne, Ne.symm hne]
        · intro p
          simp only [List.mem_append, not_or]
          refine ⟨?_, a3 p⟩
          rcases downloadOne_pdfs_cases ok q.1 q.2 with h | h <;> rw [h] <;>
            simp [hne, Ne.symm hne]
      · intro h5 hok
        obtain ⟨b1, b2⟩ := ihB h5 hok
        refine ⟨List.mem_append.mpr (Or.inr b1), ?_⟩
        intro p
        simp only [List.mem_append, not_or]
        refine ⟨?_, b2 p⟩
        rcases downloadOne_pdfs_cases ok q.1 q.2 with h | h <;> rw [h] <;>
          simp [hne, Ne.symm hne]

/-- C10 (confirmed): in the download loop, a link of at most five characters
(the empty string included) is silently treated as absent — no download
attempt, no per-document warning, and no resolved pdf for that document —
while a longer link whose download fails produces a warning and is omitted
from the resolved documents.  The seven document labels of
`docs_to_download` are distinct, so per-document attribution is sound. -/
theorem short_link_skip_C10 (ok : String → Bool) (L : List (String × String))
    (hnd : (L.map Prod.fst).Nodup) (d u : String) (hmem : (d, u) ∈ L) :
    (∀ links : Links, ((docsToDownload links).map Prod.fst).Nodup) ∧
    (u.length ≤ 5 →
      Event.downloadAttempt d ∉ (downloadDocs ok L).2 ∧
      Event.downloadWarning d ∉ (downloadDocs ok L).2 ∧
      ∀ p, (d, p) ∉ (downloadDocs ok L).1) ∧
    (u.length > 5 → ok d = false →
      Event.downloadWarning d ∈ (downloadDocs ok L).2 ∧
      ∀ p, (d, p) ∉ (downloadDocs ok L).1) := by
  obtain ⟨hA, hB⟩ := downloadDocs_item_spec ok d u L hnd hmem
  refine ⟨fun links => ?_, hA, hB⟩
  exact (by decide :
    (["TRANSCRIPT_INTERVIEW", "DOE_ABUSE", "DOE_GMC", "DAIR", "FAIR", "RAPSHEET",
      "AI_SUMMARY"] : List String).Nodup)

/-- C10 witness: the per-link behaviour at a concrete case — the blank
`DOE_ABUSE` link is skipped silently while downloads are failing. -/
theorem short_link_skip_C10_witness :
    (∀ links : Links, ((docsToDownload links).map Prod.fst).Nodup) ∧
    ("".length ≤ 5 →
      Event.downloadAttempt "DOE_ABUSE" ∉
        (downloadDocs (fun _ => false) (docsToDownload rowW.links)).2 ∧
      Event.downloadWarning "DOE_ABUSE" ∉
        (downloadDocs (fun _ => false) (docsToDownload rowW.links)).2 ∧
      ∀ p, ("DOE_ABUSE", p) ∉ (downloadDocs (fun _ => false) (docsToDownload rowW.links)).1) ∧
    ("".length > 5 → (fun _ => false : String → Bool) "DOE_ABUSE" = false →
      Event.downloadWarning "DOE_ABUSE" ∈
        (downloadDocs (fun _ => false) (docsToDownload rowW.links)).2 ∧
      ∀ p, ("DOE_ABUSE", p) ∉ (downloadDocs (fun _ => false) (docsToDownload rowW.links)).1) :=
  short_link_skip_C10 (fun _ => false) (docsToDownload rowW.links) (by decide)
    "DOE_ABUSE" "" (by decide)
